import Mathlib

/-!
Verification of the leave-request lifecycle of the employee-tool repository.

The development is a shallow embedding of the TypeScript client code:

* data model from `src/types/index.tsx` (the `Profile`, `LeaveRequest`,
  `LeaveBalance` interfaces), restricted to the fields the verified
  operations read or write;
* `handleApprove` / `handleReject` / `fetchLeaveRequests` from
  `src/components/LeaveRequestsList.tsx`;
* `calculateDays` / `handleSubmit` from
  `src/components/LeaveRequestForm.tsx`;
* `isAdmin` / `fetchProfile` / `createBasicProfile` from
  `src/context/AuthContext.tsx`;
* `toggleEmployeeStatus` from the employees list component.

The Supabase store is modelled as an explicit record of tables (`Db`); a
`.update(...).eq("id", x)` call becomes a map over the corresponding list
that rewrites the rows whose `id` matches, and an `.insert` becomes an
append.  Calendar dates are modelled as whole-day numbers: the forms feed
`YYYY-MM-DD` strings, which JavaScript `new Date` parses to UTC midnights,
so millisecond differences are exact multiples of 86 400 000 and the
`Math.ceil` in `calculateDays` is the identity on the quotient.
-/

namespace EmployeeTool

/-- Request status, the `"pending" | "approved" | "rejected"` union of
`src/types/index.tsx`. -/
inductive LeaveStatus
  | pending
  | approved
  | rejected
deriving DecidableEq, Repr

/-- Model of JavaScript `String.prototype.trim`: surrounding whitespace is
removed.  Lean's built-in `String.trim` is extensionally the same but does
not reduce in the kernel, so the list-of-characters form is used. -/
def jsTrim (s : String) : String :=
  ⟨((s.data.dropWhile Char.isWhitespace).reverse.dropWhile Char.isWhitespace).reverse⟩

/-- Profile row (`profiles` table), from the `Profile` interface of
`src/types/index.tsx`; presentation-only fields (avatar, phone, address,
department, position, hire date, salary, manager, timestamps) are omitted
because no verified operation reads them. -/
structure Profile where
  id : String
  email : String
  full_name : String
  employee_id : String
  user_role : String
  is_active : Bool
deriving DecidableEq, Repr

/-- Leave-request row (`leave_requests` table), from the `LeaveRequest`
interface of `src/types/index.tsx`.  Dates are whole-day numbers (see the
file comment); `created_at` and `approved_at` are abstract timestamps.
`approved_at` is the only decision-timestamp column in the schema; it is
written by the approve handler and by nothing else.  The `updated_at` and
joined `employee`/`approver` display fields are omitted: no verified
operation depends on them. -/
structure LeaveRequest where
  id : String
  employee_id : String
  leave_type : String
  start_date : Option Int
  end_date : Option Int
  total_days : Int
  reason : String
  status : LeaveStatus
  approved_by : Option String
  approved_at : Option Nat
  rejection_reason : Option String
  created_at : Nat
deriving DecidableEq, Repr

/-- Balance row (`leave_balances` table), from the `LeaveBalance` interface
of `src/types/index.tsx`. -/
structure LeaveBalance where
  id : String
  employee_id : String
  leave_type : String
  total_days : Int
  used_days : Int
  remaining_days : Int
  year : Int
deriving DecidableEq, Repr

/-- The Supabase store as seen by the client: one list per table. -/
structure Db where
  profiles : List Profile
  leave_requests : List LeaveRequest
  leave_balances : List LeaveBalance
deriving DecidableEq, Repr

/-- Effect of the approve update object on a row: status `approved`,
`approved_at` the current time, `approved_by` the authenticated user. -/
def approvedRow (r : LeaveRequest) (now : Nat) (uid : Option String) : LeaveRequest :=
  { r with status := LeaveStatus.approved, approved_at := some now, approved_by := uid }

/-- Effect of the reject update object on a row: status `rejected` and the
given rejection reason; nothing else — in particular no timestamp — is
written. -/
def rejectedRow (r : LeaveRequest) (reason : String) : LeaveRequest :=
  { r with status := LeaveStatus.rejected, rejection_reason := some reason }

/-- Embedding of `handleApprove` (`src/components/LeaveRequestsList.tsx`,
lines 141-166): a single unconditional
`update({status:"approved", approved_at:now, approved_by:uid}).eq("id", requestId)`
on `leave_requests`.  The handler checks no precondition (not the current
status, not the balance) and touches no other table; `uid` is the possibly
absent authenticated user id. -/
def handleApprove (db : Db) (requestId : String) (now : Nat) (uid : Option String) : Db :=
  { db with
    leave_requests := db.leave_requests.map fun r =>
      if r.id = requestId then approvedRow r now uid else r }

/-- Outcome of the reject handler's client-side guard. -/
inductive RejectOutcome
  | MissingReason
deriving DecidableEq, Repr

/-- Embedding of `handleReject` (`src/components/LeaveRequestsList.tsx`,
lines 168-197).  The guard `if (!reason || reason.trim() === "")` aborts
before any write (the alert is modelled as the `MissingReason` outcome);
otherwise a single unconditional
`update({status:"rejected", rejection_reason:reason}).eq("id", requestId)`
runs.  A JavaScript-absent reason is `none`; `!reason` is true exactly for
an absent or empty string.  The pair returns the resulting store and the
guard outcome (`none` means the update ran). -/
def handleReject (db : Db) (requestId : String) (reason : Option String) :
    Db × Option RejectOutcome :=
  if reason.getD "" = "" ∨ jsTrim (reason.getD "") = "" then
    (db, some RejectOutcome.MissingReason)
  else
    ({ db with
        leave_requests := db.leave_requests.map fun r =>
          if r.id = requestId then rejectedRow r (reason.getD "") else r },
      none)

/-- Embedding of `calculateDays` (`src/components/LeaveRequestForm.tsx`,
lines 33-39): `0` when either field is empty (falsy), otherwise
`Math.ceil((end - start)/day) + 1`, which on whole-day UTC dates is exactly
the day difference plus one. -/
def calculateDays (startDate : Option Int) (endDate : Option Int) : Int :=
  match startDate, endDate with
  | some s, some e => (e - s) + 1
  | _, _ => 0

/-- Form state of `LeaveRequestForm` (`formData`): empty date fields are
`none`. -/
structure LeaveRequestFormData where
  leave_type : String
  start_date : Option Int
  end_date : Option Int
  reason : String
deriving DecidableEq, Repr

/-- Failure outcomes of `handleSubmit`'s client-side checks. -/
inductive SubmitOutcome
  | NotSignedIn
  | InvalidRange
deriving DecidableEq, Repr

deriving instance DecidableEq for Except

/-- The row `handleSubmit` inserts (its `requestPayload`, lines 114-122 of
`src/components/LeaveRequestForm.tsx`): dates copied through, `total_days`
from `calculateDays`, the reason trimmed, status `pending`; `newId` and
`now` stand for the store-generated id and `created_at`. -/
def submittedRow (uid : String) (form : LeaveRequestFormData) (newId : String) (now : Nat) :
    LeaveRequest :=
  { id := newId
    employee_id := uid
    leave_type := form.leave_type
    start_date := form.start_date
    end_date := form.end_date
    total_days := calculateDays form.start_date form.end_date
    reason := jsTrim form.reason
    status := LeaveStatus.pending
    approved_by := none
    approved_at := none
    rejection_reason := none
    created_at := now }

/-- Embedding of `handleSubmit` (`src/components/LeaveRequestForm.tsx`,
lines 83-180).  Pre-flight: user and profile must be present (else the
"sign out and back in" message, modelled as `NotSignedIn`); then
`totalDays <= 0` aborts with the "End date must be after start date"
message (`InvalidRange`); otherwise the payload is inserted.  Note the
handler performs no validation of the reason text: it only trims it.
Store-level insert failures (permission, missing table) are outside the
embedding; the insert itself is modelled as succeeding. -/
def handleSubmit (db : Db) (user : Option String) (profile : Option Profile)
    (form : LeaveRequestFormData) (newId : String) (now : Nat) :
    Db × Except SubmitOutcome LeaveRequest :=
  match user, profile with
  | some uid, some _ =>
      if calculateDays form.start_date form.end_date ≤ 0 then
        (db, Except.error SubmitOutcome.InvalidRange)
      else
        ({ db with leave_requests := db.leave_requests ++ [submittedRow uid form newId now] },
          Except.ok (submittedRow uid form newId now))
  | _, _ => (db, Except.error SubmitOutcome.NotSignedIn)

/-- Embedding of the `isAdmin` flag of `src/context/AuthContext.tsx`
(line 336): `profile?.user_role === "admin"`. -/
def isAdmin (profile : Option Profile) : Bool :=
  match profile with
  | some p => p.user_role == "admin"
  | none => false

/-- Gate for the admin actions column of `LeaveRequestsList` (lines 291 and
354): the approve/reject buttons render only when `showActions && isAdmin`.
This is the only place the caller's role is consulted. -/
def adminActionsVisible (showActions : Bool) (profile : Option Profile) : Bool :=
  showActions && isAdmin profile

/-- Embedding of `toggleEmployeeStatus` of the employees list component: a
single unconditional `update({is_active: !currentStatus}).eq("id", employeeId)`
on `profiles`.  The function receives no caller identity and checks no
role or active flag. -/
def toggleEmployeeStatus (db : Db) (employeeId : String) (currentStatus : Bool) : Db :=
  { db with
    profiles := db.profiles.map fun p =>
      if p.id = employeeId then { p with is_active := !currentStatus } else p }

/-- Classification of the error branches `fetchProfile` distinguishes
(`src/context/AuthContext.tsx`, lines 129-153): `tableNotFound` covers
`PGRST116` / "relation" / "does not exist", `permissionDenied` covers
`PGRST301` / "permission", `otherFailure` is every other store error. -/
inductive ProfileFetchError
  | tableNotFound
  | permissionDenied
  | otherFailure
deriving DecidableEq, Repr

/-- Authenticated user as returned by `supabase.auth.getUser()`; the
display name stands for the already-resolved
`user_metadata?.full_name || email prefix || "New User"` chain. -/
structure AuthUser where
  id : String
  email : String
  full_name : String
deriving DecidableEq, Repr

/-- The ad hoc profile `createBasicProfile` fabricates
(`src/context/AuthContext.tsx`, lines 77-86): role `"employee"`, active.
`tag` stands for the generated `EMP${Date.now()}` employee id. -/
def basicProfileOf (u : AuthUser) (tag : String) : Profile :=
  { id := u.id
    email := u.email
    full_name := u.full_name
    employee_id := tag
    user_role := "employee"
    is_active := true }

/-- Embedding of `createBasicProfile` (`src/context/AuthContext.tsx`,
lines 73-116): the basic profile is inserted into `profiles`; if the insert
fails (`insertOk = false`) the same object is returned as a purely
in-memory temporary profile, so the caller receives the fabricated profile
either way. -/
def createBasicProfile (u : AuthUser) (tag : String) (insertOk : Bool) (db : Db) :
    Db × Option Profile :=
  if insertOk then
    ({ db with profiles := db.profiles ++ [basicProfileOf u tag] }, some (basicProfileOf u tag))
  else
    (db, some (basicProfileOf u tag))

/-- Embedding of `fetchProfile` (`src/context/AuthContext.tsx`, lines
118-171).  `queryResult` is the outcome of the `profiles` select
(`maybeSingle`): a table-not-found error returns `none` (no profile, no
surfaced error); a permission error synthesizes a basic profile when a
current user exists; any other error returns `none`; a missing row also
synthesizes; a found row is returned as is. -/
def fetchProfile (db : Db) (queryResult : Except ProfileFetchError (Option Profile))
    (currentUser : Option AuthUser) (tag : String) (insertOk : Bool) :
    Db × Option Profile :=
  match queryResult with
  | Except.error ProfileFetchError.tableNotFound => (db, none)
  | Except.error ProfileFetchError.permissionDenied =>
      match currentUser with
      | some u => createBasicProfile u tag insertOk db
      | none => (db, none)
  | Except.error ProfileFetchError.otherFailure => (db, none)
  | Except.ok none =>
      match currentUser with
      | some u => createBasicProfile u tag insertOk db
      | none => (db, none)
  | Except.ok (some p) => (db, some p)

/-- Newest-first order on requests: the right element was created no later
than the left one.  This is the `order("created_at", {ascending:false})`
of the listing query. -/
def newestFirst (a b : LeaveRequest) : Prop :=
  b.created_at ≤ a.created_at

instance : DecidableRel newestFirst :=
  fun _ _ => inferInstanceAs (Decidable (_ ≤ _))

instance : IsTotal LeaveRequest newestFirst :=
  ⟨fun _ _ => le_total _ _⟩

instance : IsTrans LeaveRequest newestFirst :=
  ⟨fun _ _ _ h1 h2 => le_trans h2 h1⟩

/-- The `limit(limit || 100)` of the listing query: an absent limit — and,
by JavaScript falsiness, a zero one — becomes 100. -/
def effectiveLimit (limit : Option Nat) : Nat :=
  match limit with
  | some n => if n = 0 then 100 else n
  | none => 100

/-- Embedding of the query of `fetchLeaveRequests`
(`src/components/LeaveRequestsList.tsx`, lines 51-56):
`select("*").order("created_at", {ascending:false}).limit(limit || 100)`.
The subsequent per-row transformation (lines 104-128) only joins display
data and keeps order and membership, so the rendered list is this one. -/
def fetchLeaveRequests (db : Db) (limit : Option Nat) : List LeaveRequest :=
  (db.leave_requests.insertionSort newestFirst).take (effectiveLimit limit)

/-! Concrete states used to evaluate the handlers. -/

/-- Session profile of an inactive rank-and-file employee. -/
def empProfile : Profile :=
  { id := "emp1"
    email := "emp1@acme.test"
    full_name := "Pat Example"
    employee_id := "EMP001"
    user_role := "employee"
    is_active := false }

/-- An active employee profile, the target of the activation toggle. -/
def targetProfile : Profile :=
  { id := "emp2"
    email := "emp2@acme.test"
    full_name := "Sam Example"
    employee_id := "EMP002"
    user_role := "employee"
    is_active := true }

/-- A pending five-day vacation request of emp1. -/
def exReq : LeaveRequest :=
  { id := "r1"
    employee_id := "emp1"
    leave_type := "vacation"
    start_date := some 100
    end_date := some 104
    total_days := 5
    reason := "family trip"
    status := LeaveStatus.pending
    approved_by := none
    approved_at := none
    rejection_reason := none
    created_at := 10 }

/-- The matching vacation balance row: 10 allocated, 2 used, 8 remaining. -/
def exBal : LeaveBalance :=
  { id := "b1"
    employee_id := "emp1"
    leave_type := "vacation"
    total_days := 10
    used_days := 2
    remaining_days := 8
    year := 2024 }

/-- Store with one pending request and a sufficient balance. -/
def exDb : Db :=
  { profiles := [empProfile, targetProfile]
    leave_requests := [exReq]
    leave_balances := [exBal] }

/-- A pending eight-day request, exceeding the remaining balance below. -/
def exReqBig : LeaveRequest :=
  { exReq with id := "r2", total_days := 8, end_date := some 107 }

/-- A nearly exhausted balance row: 10 allocated, 7 used, 3 remaining. -/
def exBalLow : LeaveBalance :=
  { exBal with id := "b2", used_days := 7, remaining_days := 3 }

/-- Store in which approving the pending request would overdraw the
balance (8 requested against 3 remaining). -/
def exDbLow : Db :=
  { profiles := [empProfile, targetProfile]
    leave_requests := [exReqBig]
    leave_balances := [exBalLow] }

/-- C1.  The claim says a successful approval debits the balance row by
`total_days` before marking the request approved.  Evaluating the code at
a pending five-day request against a `{total 10, used 2, remaining 8}`
balance: `handleApprove` marks the request approved yet leaves the
`leave_balances` table byte-for-byte unchanged — `used_days` stays 2
instead of becoming 7.  The handler contains no debit at all. -/
theorem C1_approval_never_debits_balance :
    ((handleApprove exDb "r1" 777 (some "admin9")).leave_requests.map fun r => r.status)
        = [LeaveStatus.approved] ∧
    (handleApprove exDb "r1" 777 (some "admin9")).leave_balances = exDb.leave_balances ∧
    ((exDb.leave_requests.map fun r => r.total_days) = [5]) ∧
    ((handleApprove exDb "r1" 777 (some "admin9")).leave_balances.map
        fun b => (b.used_days, b.remaining_days)) = [(2, 8)] := by
  decide

/-- C2.  The claim says approving a request whose `total_days` exceeds the
remaining balance returns `InsufficientBalance`, leaves the request
pending and the balance unchanged.  Evaluating the code at an eight-day
pending request against 3 remaining days: `handleApprove` performs no
balance check, marks the request approved anyway, and has no error
outcome to return. -/
theorem C2_overdraft_approval_not_blocked :
    ((exDbLow.leave_requests.map fun r => (r.total_days, r.status))
        = [(8, LeaveStatus.pending)]) ∧
    ((exDbLow.leave_balances.map fun b => b.remaining_days) = [3]) ∧
    ((handleApprove exDbLow "r2" 777 (some "admin9")).leave_requests.map fun r => r.status)
        = [LeaveStatus.approved] ∧
    (handleApprove exDbLow "r2" 777 (some "admin9")).leave_balances = exDbLow.leave_balances := by
  decide

/-- C3.  The claim says a request's status changes at most once and a
second decide call returns `AlreadyDecided` without writing.  Evaluating
the code: after `handleApprove` marks r1 approved, `handleReject` on the
same request succeeds (guard outcome `none`; neither handler checks the
current status), overwriting the terminal status — the request ends up
rejected with the stale `approved_by` still set, and no `AlreadyDecided`
outcome exists anywhere in the code. -/
theorem C3_decided_request_overwritten :
    (((handleApprove exDb "r1" 100 (some "admin9")).leave_requests.map fun r => r.status)
        = [LeaveStatus.approved]) ∧
    (handleReject (handleApprove exDb "r1" 100 (some "admin9")) "r1"
        (some "changed decision")).2 = none ∧
    (((handleReject (handleApprove exDb "r1" 100 (some "admin9")) "r1"
        (some "changed decision")).1.leave_requests.map
          fun r => (r.status, r.rejection_reason, r.approved_by))
        = [(LeaveStatus.rejected, some "changed decision", some "admin9")]) := by
  decide

/-- C4.  With both dates present, creation computes
`total_days = (end - start) + 1`: when `start ≤ end` the insert happens
with exactly that value (and it is at least 1, the row is appended
pending), and when `start > end` the submission aborts with the
invalid-range outcome and the store is untouched. -/
theorem C4_total_days_and_invalid_range (db : Db) (uid : String) (p : Profile)
    (form : LeaveRequestFormData) (newId : String) (now : Nat) (s e : Int)
    (hs : form.start_date = some s) (he : form.end_date = some e) :
    (s ≤ e →
      handleSubmit db (some uid) (some p) form newId now
          = ({ db with
                leave_requests := db.leave_requests ++ [submittedRow uid form newId now] },
              Except.ok (submittedRow uid form newId now)) ∧
        (submittedRow uid form newId now).total_days = (e - s) + 1 ∧
        1 ≤ (submittedRow uid form newId now).total_days ∧
        (submittedRow uid form newId now).status = LeaveStatus.pending) ∧
    (e < s →
      handleSubmit db (some uid) (some p) form newId now
          = (db, Except.error SubmitOutcome.InvalidRange)) := by
  have hdays : calculateDays form.start_date form.end_date = (e - s) + 1 := by
    simp [calculateDays, hs, he]
  constructor
  · intro hle
    have hpos : ¬ calculateDays form.start_date form.end_date ≤ 0 := by
      rw [hdays]; omega
    refine ⟨?_, ?_, ?_, rfl⟩
    · simp only [handleSubmit]
      rw [if_neg hpos]
    · simpa [submittedRow] using hdays
    · simp only [submittedRow]
      rw [hdays]; omega
  · intro hlt
    have hneg : calculateDays form.start_date form.end_date ≤ 0 := by
      rw [hdays]; omega
    simp only [handleSubmit]
    rw [if_pos hneg]

/-- Form input used to instantiate the creation theorems: a four-day range. -/
def okForm : LeaveRequestFormData :=
  { leave_type := "vacation"
    start_date := some 0
    end_date := some 3
    reason := "  spring hike  " }

/-- Witness for C4 at the concrete form `okForm` (dates 0 and 3). -/
theorem C4_total_days_and_invalid_range_witness :
    (((0 : Int) ≤ 3 →
      handleSubmit exDb (some "emp1") (some empProfile) okForm "r7" 42
          = ({ exDb with
                leave_requests := exDb.leave_requests ++ [submittedRow "emp1" okForm "r7" 42] },
              Except.ok (submittedRow "emp1" okForm "r7" 42)) ∧
        (submittedRow "emp1" okForm "r7" 42).total_days = (3 - 0) + 1 ∧
        1 ≤ (submittedRow "emp1" okForm "r7" 42).total_days ∧
        (submittedRow "emp1" okForm "r7" 42).status = LeaveStatus.pending) ∧
    ((3 : Int) < 0 →
      handleSubmit exDb (some "emp1") (some empProfile) okForm "r7" 42
          = (exDb, Except.error SubmitOutcome.InvalidRange))) :=
  C4_total_days_and_invalid_range exDb "emp1" empProfile okForm "r7" 42 0 3 rfl rfl

/-- C5.  A reject whose reason is absent or blank after trimming hits the
client-side guard: the handler reports the missing reason and returns
before any write, so the store — the request's status and every other
field — is exactly as before. -/
theorem C5_reject_blank_reason_no_write (db : Db) (requestId : String)
    (reason : Option String) (h : jsTrim (reason.getD "") = "") :
    handleReject db requestId reason = (db, some RejectOutcome.MissingReason) := by
  unfold handleReject
  rw [if_pos (Or.inr h)]

/-- Witness for C5: rejecting r1 with the whitespace-only reason. -/
theorem C5_reject_blank_reason_no_write_witness :
    handleReject exDb "r1" (some "   ") = (exDb, some RejectOutcome.MissingReason) :=
  C5_reject_blank_reason_no_write exDb "r1" (some "   ") (by decide)

/-- Form input whose reason is whitespace-only; the `required` attribute of
the reason textarea only blocks the fully empty string in the browser, so
this input reaches `handleSubmit`. -/
def blankReasonForm : LeaveRequestFormData :=
  { leave_type := "sick"
    start_date := some 200
    end_date := some 200
    reason := "   " }

/-- C6 counterexample.  The claim says a creation whose reason is empty
after trimming fails with `InvalidReason` and persists nothing.
Evaluating the code at a whitespace-only reason: `handleSubmit` contains
no reason check, the insert succeeds, and the persisted row's reason is
the empty string. -/
theorem C6_whitespace_reason_accepted :
    (handleSubmit exDb (some "emp1") (some empProfile) blankReasonForm "r9" 50).2
        = Except.ok (submittedRow "emp1" blankReasonForm "r9" 50) ∧
    (submittedRow "emp1" blankReasonForm "r9" 50).reason = "" ∧
    (handleSubmit exDb (some "emp1") (some empProfile) blankReasonForm "r9" 50).1.leave_requests
        = exDb.leave_requests ++ [submittedRow "emp1" blankReasonForm "r9" 50] := by
  decide

/-- C6 as amended.  Creation performs no validation of the reason: every
accepted creation stores the input reason trimmed of surrounding
whitespace — possibly the empty string — and appends the row to the
store. -/
theorem C6_reason_stored_trimmed_unvalidated (db : Db) (uid : String) (p : Profile)
    (form : LeaveRequestFormData) (newId : String) (now : Nat) (row : LeaveRequest)
    (h : (handleSubmit db (some uid) (some p) form newId now).2 = Except.ok row) :
    row.reason = jsTrim form.reason ∧
    row ∈ (handleSubmit db (some uid) (some p) form newId now).1.leave_requests := by
  simp only [handleSubmit] at h ⊢
  by_cases hc : calculateDays form.start_date form.end_date ≤ 0
  · rw [if_pos hc] at h
    exact absurd h (by simp)
  · rw [if_neg hc] at h ⊢
    have hrow : row = submittedRow uid form newId now := by
      simpa using h.symm
    subst hrow
    exact ⟨rfl, by simp⟩

/-- Witness for the amended C6: the whitespace-only reason is stored as the
empty string and the row is persisted. -/
theorem C6_reason_stored_trimmed_unvalidated_witness :
    (submittedRow "emp1" blankReasonForm "r9" 50).reason = jsTrim blankReasonForm.reason ∧
    (submittedRow "emp1" blankReasonForm "r9" 50)
        ∈ (handleSubmit exDb (some "emp1") (some empProfile) blankReasonForm "r9" 50).1.leave_requests :=
  C6_reason_stored_trimmed_unvalidated exDb "emp1" empProfile blankReasonForm "r9" 50
    (submittedRow "emp1" blankReasonForm "r9" 50) (by decide)

/-- C7 counterexample.  The claim says an inactive caller is denied every
operation and a non-admin caller is denied decide/toggleActivation with
`insufficient_role`.  Evaluating the code in a session whose profile is
the inactive, non-admin `empProfile`: the caller's only representation in
the code is the `isAdmin` rendering flag, and `toggleEmployeeStatus` —
which takes no caller at all — still executes the deactivation of emp2.
No denial of any kind occurs. -/
theorem C7_inactive_nonadmin_toggle_executes :
    empProfile.is_active = false ∧
    isAdmin (some empProfile) = false ∧
    adminActionsVisible true (some empProfile) = false ∧
    ((exDb.profiles.map fun q => (q.id, q.is_active)) = [("emp1", false), ("emp2", true)]) ∧
    (((toggleEmployeeStatus exDb "emp2" true).profiles.map fun q => (q.id, q.is_active))
        = [("emp1", false), ("emp2", false)]) := by
  decide

/-- C7 as amended.  The client performs no authorization enforcement in
its operation handlers: `toggleEmployeeStatus` receives no caller identity
and unconditionally applies the toggle to the matching profile row for
every caller, active or not; the caller's role is consulted only by the
`isAdmin` flag — true exactly when the session profile's `user_role` is
`"admin"` — which merely gates whether the admin action buttons render. -/
theorem C7_toggle_unconditional_isAdmin_render_only (db : Db) (eid : String) (cur : Bool)
    (q : Profile) (p : Profile) (hq : q ∈ db.profiles) (hid : q.id = eid) :
    { q with is_active := !cur } ∈ (toggleEmployeeStatus db eid cur).profiles ∧
    (isAdmin (some p) = true ↔ p.user_role = "admin") ∧
    adminActionsVisible true (some p) = isAdmin (some p) := by
  refine ⟨?_, ?_, ?_⟩
  · unfold toggleEmployeeStatus
    have hmap := List.mem_map_of_mem
      (fun r => if r.id = eid then { r with is_active := !cur } else r) hq
    simpa [hid] using hmap
  · simp [isAdmin]
  · simp [adminActionsVisible]

/-- Witness for the amended C7: deactivating emp2 lands regardless of the
session, and the inactive employee profile fails the rendering gate. -/
theorem C7_toggle_unconditional_isAdmin_render_only_witness :
    { targetProfile with is_active := !true } ∈ (toggleEmployeeStatus exDb "emp2" true).profiles ∧
    (isAdmin (some empProfile) = true ↔ empProfile.user_role = "admin") ∧
    adminActionsVisible true (some empProfile) = isAdmin (some empProfile) :=
  C7_toggle_unconditional_isAdmin_render_only exDb "emp2" true targetProfile empProfile
    (by decide) (by decide)

/-- C8 counterexample.  The claim says the decision timestamp is present
iff the status is not pending, and in particular that a successful reject
records one.  Evaluating the code: rejecting the pending r1 succeeds, sets
status and `rejection_reason`, and writes no timestamp — `approved_at`,
the only decision-timestamp column, stays absent on a rejected row. -/
theorem C8_reject_records_no_timestamp :
    (handleReject exDb "r1" (some "no cover available")).2 = none ∧
    (((handleReject exDb "r1" (some "no cover available")).1.leave_requests.map
        fun r => (r.status, r.rejection_reason, r.approved_at, r.approved_by))
      = [(LeaveStatus.rejected, some "no cover available", none, none)]) := by
  decide

/-- C8 as amended.  On a clean pending request (no decision fields set):
an approve stores status `approved` with `approved_by` and `approved_at`
present and `rejection_reason` still absent; a reject with a non-blank
reason succeeds and stores status `rejected` with `rejection_reason`
present and `approved_by` absent — but records no decision timestamp,
`approved_at` staying absent.  (Stale fields of an overwritten decision
are not cleared, so the presence biconditionals do not hold in general.) -/
theorem C8_decision_fields_from_clean_pending (db : Db) (rid : String) (now : Nat)
    (uid : Option String) (s : String) (r : LeaveRequest)
    (hmem : r ∈ db.leave_requests) (hid : r.id = rid)
    (hclean : r.status = LeaveStatus.pending ∧ r.rejection_reason = none ∧
      r.approved_by = none ∧ r.approved_at = none)
    (hs : ¬ (s = "" ∨ jsTrim s = "")) :
    (approvedRow r now uid ∈ (handleApprove db rid now uid).leave_requests) ∧
    (approvedRow r now uid).rejection_reason = none ∧
    (handleReject db rid (some s)).2 = none ∧
    (rejectedRow r s ∈ (handleReject db rid (some s)).1.leave_requests) ∧
    (rejectedRow r s).approved_by = none ∧
    (rejectedRow r s).approved_at = none := by
  obtain ⟨-, hrr, hab, haa⟩ := hclean
  have hguard : ¬ ((some s : Option String).getD "" = "" ∨
      jsTrim ((some s : Option String).getD "") = "") := by
    simpa using hs
  refine ⟨?_, ?_, ?_, ?_, ?_, ?_⟩
  · unfold handleApprove
    have hmap := List.mem_map_of_mem
      (fun x => if x.id = rid then approvedRow x now uid else x) hmem
    simpa [hid] using hmap
  · simpa [approvedRow] using hrr
  · unfold handleReject
    rw [if_neg hguard]
  · unfold handleReject
    rw [if_neg hguard]
    have hmap := List.mem_map_of_mem
      (fun x => if x.id = rid then rejectedRow x ((some s : Option String).getD "") else x) hmem
    simpa [hid] using hmap
  · simpa [rejectedRow] using hab
  · simpa [rejectedRow] using haa

/-- Witness for the amended C8 at the pending request r1 with the reason
text "sick cover arranged". -/
theorem C8_decision_fields_from_clean_pending_witness :
    (approvedRow exReq 55 (some "admin9")
        ∈ (handleApprove exDb "r1" 55 (some "admin9")).leave_requests) ∧
    (approvedRow exReq 55 (some "admin9")).rejection_reason = none ∧
    (handleReject exDb "r1" (some "sick cover arranged")).2 = none ∧
    (rejectedRow exReq "sick cover arranged"
        ∈ (handleReject exDb "r1" (some "sick cover arranged")).1.leave_requests) ∧
    (rejectedRow exReq "sick cover arranged").approved_by = none ∧
    (rejectedRow exReq "sick cover arranged").approved_at = none :=
  C8_decision_fields_from_clean_pending exDb "r1" 55 (some "admin9") "sick cover arranged" exReq
    (by decide) (by decide) (by decide) (by decide)

/-- Authenticated user used to evaluate the profile-fetch fallback. -/
def exUser : AuthUser :=
  { id := "u77"
    email := "new.user@acme.test"
    full_name := "New User" }

/-- C9 counterexample.  The claim says a table-not-found or
permission-denied failure silently synthesizes an ad hoc in-memory
profile.  Evaluating the code at a table-not-found error: `fetchProfile`
returns no profile at all (and leaves the store untouched) — the fallback
profile is not synthesized on this branch. -/
theorem C9_table_not_found_yields_no_profile :
    (fetchProfile exDb (Except.error ProfileFetchError.tableNotFound) (some exUser)
        "EMP9" true).2 = none ∧
    (fetchProfile exDb (Except.error ProfileFetchError.tableNotFound) (some exUser)
        "EMP9" true).1 = exDb := by
  decide

/-- C9 as amended.  Only a permission-denied failure (with an
authenticated user) or an absent profile row silently synthesizes the ad
hoc basic profile — `user_role` `"employee"`, `is_active` true — and
proceeds as if it existed; a table-not-found failure instead yields no
profile, though it too surfaces no error to the caller. -/
theorem C9_fallback_profile_characterization (db : Db) (u : AuthUser) (tag : String)
    (insertOk : Bool) :
    (fetchProfile db (Except.error ProfileFetchError.permissionDenied) (some u) tag insertOk).2
        = some (basicProfileOf u tag) ∧
    (fetchProfile db (Except.ok none) (some u) tag insertOk).2 = some (basicProfileOf u tag) ∧
    (basicProfileOf u tag).user_role = "employee" ∧
    (basicProfileOf u tag).is_active = true ∧
    (fetchProfile db (Except.error ProfileFetchError.tableNotFound) (some u) tag insertOk).2
        = none := by
  cases insertOk <;> simp [fetchProfile, createBasicProfile, basicProfileOf]

/-- C10.  Invoked without an explicit limit, the listing takes the first
100 rows of the requests sorted newest-`created_at`-first: the result has
at most 100 rows, is ordered newest first, contains only stored requests,
and whenever some stored request is missing from it the result holds
exactly the 100 most recent ones. -/
theorem C10_default_listing_newest_hundred (db : Db) :
    (fetchLeaveRequests db none).length ≤ 100 ∧
    List.Sorted newestFirst (fetchLeaveRequests db none) ∧
    fetchLeaveRequests db none = (db.leave_requests.insertionSort newestFirst).take 100 ∧
    (∀ x ∈ fetchLeaveRequests db none, x ∈ db.leave_requests) ∧
    (∀ x ∈ db.leave_requests, x ∉ fetchLeaveRequests db none →
      (fetchLeaveRequests db none).length = 100) := by
  refine ⟨?_, ?_, rfl, ?_, ?_⟩
  · have hlen : (fetchLeaveRequests db none).length
        = min 100 (db.leave_requests.insertionSort newestFirst).length := by
      simp [fetchLeaveRequests, List.length_take, effectiveLimit]
    rw [hlen]
    exact min_le_left _ _
  · exact List.Pairwise.sublist
      (List.take_sublist _ _) (List.sorted_insertionSort newestFirst db.leave_requests)
  · intro x hx
    have hmem := (List.take_sublist (effectiveLimit none)
      (db.leave_requests.insertionSort newestFirst)).mem hx
    simpa using hmem
  · intro x hx hnot
    by_cases hlen : (db.leave_requests.insertionSort newestFirst).length ≤ 100
    · exfalso
      apply hnot
      have hall : fetchLeaveRequests db none = db.leave_requests.insertionSort newestFirst := by
        unfold fetchLeaveRequests
        exact List.take_of_length_le (by simpa [effectiveLimit] using hlen)
      rw [hall]
      simpa using hx
    · push_neg at hlen
      unfold fetchLeaveRequests
      rw [List.length_take]
      simp only [effectiveLimit]
      omega

/-- Witness for C10 at the one-request store: the default listing obeys
the bound and the ordering. -/
theorem C10_default_listing_newest_hundred_witness :
    (fetchLeaveRequests exDb none).length ≤ 100 ∧
    List.Sorted newestFirst (fetchLeaveRequests exDb none) :=
  ⟨(C10_default_listing_newest_hundred exDb).1, (C10_default_listing_newest_hundred exDb).2.1⟩

end EmployeeTool
